import Mathlib

/-!
Shallow embedding of `packages/api/src/services/library_item.ts` (omnivore).

The service builds parameterized WHERE clauses on a TypeORM query builder.
We model a query builder as a list of emitted clauses plus a single global
parameter map, mirroring TypeORM's `andWhere(condition, parameters)`
semantics: every call appends one clause and merges its bindings into one
query-wide parameter object, where a later binding of the same name
overwrites an earlier one.  Clause texts are represented by an inductive
type with one constructor per distinct SQL condition string appearing in
the source; parameter references inside a clause are kept as names and are
resolved against the global map at evaluation time, exactly as the
database driver substitutes `:name` placeholders.

JavaScript `Date` values are modelled as epoch milliseconds (`Nat`);
`new Date()` is an explicit `now` taken from an environment that also
carries the (external) full-text-search oracles.
-/

namespace Omnivore

/-- Modelled from the spec: `LibraryItemState` lives in
`entity/library_item.ts`, which is not under `src/`; the spec (§3) gives the
enum `Processing | Succeeded | Archived | Deleted`. -/
inductive LibraryItemState where
  | Processing
  | Succeeded
  | Archived
  | Deleted
deriving DecidableEq

/-- Modelled from the spec: `Label` entity (user-defined tag), §3. -/
structure Label where
  id : String
  name : String
deriving DecidableEq

/-- Modelled from the spec: `EntityLabel` join row `(labelId, libraryItemId)`, §3. -/
structure EntityLabel where
  labelId : String
  libraryItemId : String
deriving DecidableEq

/-- The persisted `library_item` row (entity file is not under `src/`;
columns are the ones the service reads or writes, from the spec §3 and the
column names appearing in the SQL strings of the source). Date columns are
epoch milliseconds; nullable columns are `Option`. The `labels` relation is
modelled as stored with the row. -/
structure LibraryItem where
  id : String
  userId : String
  title : String
  siteName : Option String
  author : Option String
  originalUrl : String
  itemType : String
  state : LibraryItemState
  savedAt : Nat
  createdAt : Nat
  updatedAt : Nat
  publishedAt : Option Nat
  readAt : Option Nat
  archivedAt : Option Nat
  deletedAt : Option Nat
  readingProgressTopPercent : Nat
  readingProgressBottomPercent : Nat
  wordCount : Option Nat
  readableContent : String
  subscription : Option String
  language : Option String
  labelNames : List String
  highlightLabels : List String
  highlightAnnotations : List String
  recommenderNames : List String
  labels : List Label
deriving DecidableEq

/-- A partial entity (`QueryDeepPartialEntity<LibraryItem>`): each field is
`none` when the caller did not supply it.  For nullable columns the supplied
value is itself an `Option` (`some none` = explicitly set to NULL). -/
structure Patch where
  state : Option LibraryItemState := none
  archivedAt : Option (Option Nat) := none
  deletedAt : Option (Option Nat) := none
  savedAt : Option Nat := none
  readAt : Option (Option Nat) := none
  readingProgressTopPercent : Option Nat := none
  readingProgressBottomPercent : Option Nat := none
deriving DecidableEq

/-- Modelled from the spec: the filter enums come from `utils/search.ts`
(not under `src/`); §4.1 and §6 list the scope values. -/
inductive InFilter where
  | ALL
  | INBOX
  | ARCHIVE
  | TRASH
  | SUBSCRIPTION
  | LIBRARY
deriving DecidableEq

/-- Modelled from the spec: read-status filter values (§4.1). -/
inductive ReadFilter where
  | ALL
  | READ
  | UNREAD
deriving DecidableEq

/-- Modelled from the spec: has-filter values (§4.1). -/
inductive HasFilter where
  | HIGHLIGHTS
  | LABELS
deriving DecidableEq

/-- Modelled from the spec: label-filter mode (§6: `mode: include|exclude`). -/
inductive LabelFilterType where
  | INCLUDE
  | EXCLUDE
deriving DecidableEq

/-- Modelled from the spec: label filter `{labels:[string], mode}` (§6). -/
structure LabelFilter where
  type : LabelFilterType
  labels : List String
deriving DecidableEq

/-- Modelled from the spec: date filter `{field, startDate?, endDate?}` (§6). -/
structure DateFilter where
  field : String
  startDate : Option Nat := none
  endDate : Option Nat := none
deriving DecidableEq

/-- Modelled from the spec: term/match filter `{field, value}` (§6). -/
structure FieldFilter where
  field : String
  value : String
deriving DecidableEq

/-- Modelled from the spec: no-filter `{field}` (§6). -/
structure NoFilter where
  field : String
deriving DecidableEq

/-- Modelled from the spec: sort direction (§4.2: field + direction). -/
inductive SortOrder where
  | ASCENDING
  | DESCENDING
deriving DecidableEq

/-- Modelled from the spec: sort field; §4.2 names save-time as the default. -/
inductive SortBy where
  | SAVED
  | UPDATED
  | PUBLISHED
deriving DecidableEq

/-- Modelled from the spec: `Sort` from `utils/search.ts` (`sort{by,order}`,
§6); both components may be absent (`sort?.order || …` in the source).
Named `SortSpec` because `Sort` is reserved in Lean. -/
structure SortSpec where
  by_ : Option SortBy := none
  order : Option SortOrder := none
deriving DecidableEq

/-- `SearchArgs` (source lines 26-45).  Optional TypeScript fields become
`Option`; `from` is `from_` because `from` is reserved in Lean. -/
structure SearchArgs where
  from_ : Option Nat := none
  size : Option Nat := none
  sort : Option SortSpec := none
  query : Option String := none
  inFilter : Option InFilter := none
  readFilter : Option ReadFilter := none
  typeFilter : Option String := none
  labelFilters : Option (List LabelFilter) := none
  hasFilters : Option (List HasFilter) := none
  dateFilters : Option (List DateFilter) := none
  termFilters : Option (List FieldFilter) := none
  matchFilters : Option (List FieldFilter) := none
  includePending : Option Bool := none
  includeDeleted : Option Bool := none
  ids : Option (List String) := none
  recommendedBy : Option String := none
  includeContent : Option Bool := none
  noFilters : Option (List NoFilter) := none
deriving DecidableEq

/-! ### Decimal rendering of loop indices

The include-label loop interpolates its index into a parameter name
(`includeLabels_${i}`).  JavaScript renders the number in decimal; we use an
explicitly fuelled structural printer so that it reduces in the kernel. -/

/-- The decimal digit character for `d < 10`. -/
def digitChar (d : Nat) : Char :=
  match d with
  | 0 => '0' | 1 => '1' | 2 => '2' | 3 => '3' | 4 => '4'
  | 5 => '5' | 6 => '6' | 7 => '7' | 8 => '8' | 9 => '9'
  | _ => '*'

/-- Digits of `n` (most significant first), with explicit fuel. -/
def decDigitsAux : Nat → Nat → List Char
  | 0, _ => []
  | _ + 1, 0 => []
  | fuel + 1, n + 1 => decDigitsAux fuel ((n + 1) / 10) ++ [digitChar ((n + 1) % 10)]

/-- Decimal rendering of a natural number, as JavaScript's `${i}` does. -/
def natToDec (n : Nat) : String :=
  if n = 0 then "0" else ⟨decDigitsAux n n⟩

/-- Numeric value of a decimal digit character (inverse of `digitChar`). -/
def charVal (c : Char) : Nat :=
  match c with
  | '0' => 0 | '1' => 1 | '2' => 2 | '3' => 3 | '4' => 4
  | '5' => 5 | '6' => 6 | '7' => 7 | '8' => 8 | '9' => 9
  | _ => 10

/-- Horner evaluation of a digit string, with accumulator. -/
def decValAux : Nat → List Char → Nat
  | a, [] => a
  | a, c :: l => decValAux (10 * a + charVal c) l

/-- Numeric value of a digit string. -/
def decVal (l : List Char) : Nat := decValAux 0 l

/-! ### Case folding

Both SQL `lower(...)` and JavaScript `toLowerCase()` are modelled by an
ASCII case fold applied characterwise (the values involved are tags, column
names and enum-like strings). -/

/-- ASCII lower-casing of one character. -/
def lowerChar (c : Char) : Char :=
  if 65 ≤ c.toNat ∧ c.toNat ≤ 90 then Char.ofNat (c.toNat + 32) else c

/-- ASCII lower-casing of a string. -/
def lowerStr (s : String) : String := ⟨s.data.map lowerChar⟩

/-- Boolean prefix test on character lists. -/
def chPrefix : List Char → List Char → Bool
  | [], _ => true
  | _ :: _, [] => false
  | a :: as, b :: bs => a = b && chPrefix as bs

/-! ### The query-builder model -/

/-- A bound parameter value. -/
inductive PVal where
  | str : String → PVal
  | state : LibraryItemState → PVal
  | date : Nat → PVal
  | strList : List String → PVal
deriving DecidableEq

/-- One emitted WHERE condition.  Each constructor corresponds to one SQL
condition string in the source; `String` arguments in parameter position are
the `:name` placeholders the condition refers to. -/
inductive Clause where
  | userEq : String → Clause
  | tsQuery : String → Clause
  | typeEq : String → Clause
  | archivedAtIsNull : Clause
  | archivedAtIsNotNull : Clause
  | deletedAtWithin14Days : Clause
  | subscriptionIsNotNull : Clause
  | noLibraryLabel : Clause
  | subscriptionNullOrLibraryLabel : Clause
  | readGe98 : Clause
  | readLt98 : Clause
  | hasHighlightAnnotations : Clause
  | hasLabelNames : Clause
  | labelsOverlap : String → Clause
  | notLabelsOverlap : String → Clause
  | fieldBetween : String → String → String → Clause
  | fieldLowerEq : String → String → Clause
  | fieldTsMatch : String → String → Clause
  | idIn : String → Clause
  | stateNe : String → Clause
  | fieldEmptyArray : String → Clause
  | recommenderNonEmpty : Clause
  | recommenderOverlap : String → Clause
deriving DecidableEq

/-- The query-builder state: emitted clauses in order, the single global
parameter map (as the chronological list of bindings), and whether the
free-text relevance ordering was installed. -/
structure QB where
  clauses : List Clause := []
  params : List (String × PVal) := []
  rankOrder : Bool := false
deriving DecidableEq

/-- `andWhere(condition, parameters)`: append the clause, merge the bindings
into the global parameter map. -/
def QB.andWhereP (qb : QB) (c : Clause) (binds : List (String × PVal)) : QB :=
  { qb with clauses := qb.clauses ++ [c], params := qb.params ++ binds }

/-- Resolution of a `:name` placeholder against the global map: the latest
binding of the name wins (later `andWhere` bindings overwrite earlier ones,
as merging into one JavaScript object does). -/
def lookupParam : List (String × PVal) → String → Option PVal
  | [], _ => none
  | (n, v) :: rest, k =>
    match lookupParam rest k with
    | some w => some w
    | none => if n = k then some v else none

/-- The evaluation environment: the clock (`new Date()` / SQL `now()`), and
the external full-text-search oracles (`websearch_to_tsquery @@ …` against
the item vector, the same against a per-field vector, and `ts_rank_cd`). -/
structure Env where
  now : Nat
  tsMatch : String → LibraryItem → Bool
  tsMatchField : String → String → LibraryItem → Bool
  tsRank : String → LibraryItem → Nat

/-- Fourteen days in milliseconds (`interval '14 days'`). -/
def fourteenDaysMs : Nat := 14 * 24 * 60 * 60 * 1000

/-- The date column read by a `between` clause or a sort. -/
def getDateField (item : LibraryItem) : String → Option Nat
  | "saved_at" => some item.savedAt
  | "created_at" => some item.createdAt
  | "updated_at" => some item.updatedAt
  | "published_at" => item.publishedAt
  | "read_at" => item.readAt
  | _ => none

/-- The text column read by a `lower(…) = :…` term clause. -/
def getTextField (item : LibraryItem) : String → Option String
  | "title" => some item.title
  | "site_name" => item.siteName
  | "author" => item.author
  | "item_type" => some item.itemType
  | "subscription" => item.subscription
  | "language" => item.language
  | _ => none

/-- The array column read by a `… = '\x7b\x7d'` no-filter clause. -/
def getArrayField (item : LibraryItem) : String → Option (List String)
  | "label_names" => some item.labelNames
  | "highlight_labels" => some item.highlightLabels
  | "highlight_annotations" => some item.highlightAnnotations
  | "recommender_names" => some item.recommenderNames
  | _ => none

/-- `lower(array_cat(label_names, highlight_labels))::text[] && ARRAY[…]`:
the item's case-folded label and highlight-label arrays overlap the given
set. -/
def overlapLowered (item : LibraryItem) (ls : List String) : Bool :=
  ((item.labelNames ++ item.highlightLabels).map lowerStr).any (fun x => ls.contains x)

/-- `ILIKE 'library'` against any element of `label_names`. -/
def hasLibraryLabel (item : LibraryItem) : Bool :=
  item.labelNames.any (fun s => lowerStr s = "library")

/-- Truth value of one clause against one row, resolving placeholders in the
global parameter map (an unresolvable or ill-typed placeholder, like a SQL
NULL comparison, yields false). -/
def Clause.eval (env : Env) (ps : List (String × PVal)) (item : LibraryItem) : Clause → Bool
  | .userEq p =>
    match lookupParam ps p with
    | some (.str u) => item.userId = u
    | _ => false
  | .tsQuery p =>
    match lookupParam ps p with
    | some (.str q) => env.tsMatch q item
    | _ => false
  | .typeEq p =>
    match lookupParam ps p with
    | some (.str t) => lowerStr item.itemType = t
    | _ => false
  | .archivedAtIsNull => item.archivedAt.isNone
  | .archivedAtIsNotNull => item.archivedAt.isSome
  | .deletedAtWithin14Days =>
    match item.deletedAt with
    | some d => env.now - fourteenDaysMs ≤ d
    | none => false
  | .subscriptionIsNotNull => item.subscription.isSome
  | .noLibraryLabel => !hasLibraryLabel item
  | .subscriptionNullOrLibraryLabel => item.subscription.isNone || hasLibraryLabel item
  | .readGe98 => 98 ≤ item.readingProgressTopPercent
  | .readLt98 => item.readingProgressTopPercent < 98
  | .hasHighlightAnnotations => !item.highlightAnnotations.isEmpty
  | .hasLabelNames => !item.labelNames.isEmpty
  | .labelsOverlap p =>
    match lookupParam ps p with
    | some (.strList ls) => overlapLowered item ls
    | _ => false
  | .notLabelsOverlap p =>
    match lookupParam ps p with
    | some (.strList ls) => !overlapLowered item ls
    | _ => false
  | .fieldBetween f p1 p2 =>
    match getDateField item f, lookupParam ps p1, lookupParam ps p2 with
    | some v, some (.date a), some (.date b) => a ≤ v && v ≤ b
    | _, _, _ => false
  | .fieldLowerEq f p =>
    match getTextField item f, lookupParam ps p with
    | some v, some (.str w) => lowerStr v = w
    | _, _ => false
  | .fieldTsMatch f p =>
    match lookupParam ps p with
    | some (.str w) => env.tsMatchField f w item
    | _ => false
  | .idIn p =>
    match lookupParam ps p with
    | some (.strList ids) => ids.contains item.id
    | _ => false
  | .stateNe p =>
    match lookupParam ps p with
    | some (.state s) => item.state ≠ s
    | _ => false
  | .fieldEmptyArray f =>
    match getArrayField item f with
    | some l => l.isEmpty
    | none => false
  | .recommenderNonEmpty => !item.recommenderNames.isEmpty
  | .recommenderOverlap p =>
    match lookupParam ps p with
    | some (.str v) => (item.recommenderNames.map lowerStr).contains v
    | _ => false

/-- A row satisfies the built query: every emitted clause holds. -/
def runClauses (env : Env) (qb : QB) (item : LibraryItem) : Bool :=
  qb.clauses.all (fun c => c.eval env qb.params item)

/-! ### `buildWhereClause` (source lines 81-261)

Each `if` block of the source becomes one `apply…` function; the guards
mirror JavaScript truthiness (`undefined` and `""` are falsy, an array is
truthy even when empty). -/

/-- JavaScript truthiness of an optional string. -/
def strTruthy : Option String → Bool
  | some s => !s.isEmpty
  | none => false

/-- The `xs && xs.length > 0` guard of the source. -/
def listNonempty {α : Type} : Option (List α) → Bool
  | some l => !l.isEmpty
  | none => false

/-- Lines 85-96: free-text query (rank projection, ts-vector match and rank
ordering). -/
def applyQuery (args : SearchArgs) (qb : QB) : QB :=
  if strTruthy args.query then
    { qb.andWhereP (.tsQuery "query") [("query", .str (args.query.getD ""))] with
      rankOrder := true }
  else qb

/-- Lines 98-102: case-insensitive item-type equality. -/
def applyType (args : SearchArgs) (qb : QB) : QB :=
  if strTruthy args.typeFilter then
    qb.andWhereP (.typeEq "typeFilter")
      [("typeFilter", .str (lowerStr (args.typeFilter.getD "")))]
  else qb

/-- Lines 104-132: scope filter (`switch` over an absent value matches no
case). -/
def applyIn (args : SearchArgs) (qb : QB) : QB :=
  if args.inFilter = some .ALL then qb
  else
    match args.inFilter with
    | some .INBOX => qb.andWhereP .archivedAtIsNull []
    | some .ARCHIVE => qb.andWhereP .archivedAtIsNotNull []
    | some .TRASH => qb.andWhereP .deletedAtWithin14Days []
    | some .SUBSCRIPTION =>
      ((qb.andWhereP .subscriptionIsNotNull []).andWhereP .noLibraryLabel []).andWhereP
        .archivedAtIsNull []
    | some .LIBRARY =>
      (qb.andWhereP .subscriptionNullOrLibraryLabel []).andWhereP .archivedAtIsNull []
    | _ => qb

/-- Lines 134-143: read-status filter. -/
def applyRead (args : SearchArgs) (qb : QB) : QB :=
  if args.readFilter = some .ALL then qb
  else
    match args.readFilter with
    | some .READ => qb.andWhereP .readGe98 []
    | some .UNREAD => qb.andWhereP .readLt98 []
    | _ => qb

/-- The `forEach` body of lines 146-157. -/
def hasFold : List HasFilter → QB → QB
  | [], qb => qb
  | .HIGHLIGHTS :: rest, qb => hasFold rest (qb.andWhereP .hasHighlightAnnotations [])
  | .LABELS :: rest, qb => hasFold rest (qb.andWhereP .hasLabelNames [])

/-- Lines 145-158: has-filters. -/
def applyHas (args : SearchArgs) (qb : QB) : QB :=
  if listNonempty args.hasFilters then hasFold (args.hasFilters.getD []) qb else qb

/-- The parameter name `includeLabels_${i}`. -/
def incName (i : Nat) : String := "includeLabels_" ++ natToDec i

/-- The indexed `forEach` over INCLUDE entries, lines 169-177. -/
def includeFold (i : Nat) : List LabelFilter → QB → QB
  | [], qb => qb
  | f :: rest, qb =>
    includeFold (i + 1) rest
      (qb.andWhereP (.labelsOverlap (incName i)) [(incName i, .strList f.labels)])

/-- The labels of all EXCLUDE entries, flattened (line 184). -/
def flatLabels : List LabelFilter → List String
  | [] => []
  | f :: rest => f.labels ++ flatLabels rest

/-- Lines 168-178: the guarded loop over the INCLUDE partition. -/
def applyIncludes (lf : List LabelFilter) (qb : QB) : QB :=
  if !(lf.filter (fun f => f.type = .INCLUDE)).isEmpty then
    includeFold 0 (lf.filter (fun f => f.type = .INCLUDE)) qb
  else qb

/-- Lines 180-187: the guarded single clause over the EXCLUDE partition. -/
def applyExcludes (lf : List LabelFilter) (qb : QB) : QB :=
  if !(lf.filter (fun f => f.type = .EXCLUDE)).isEmpty then
    qb.andWhereP (.notLabelsOverlap "excludeLabels")
      [("excludeLabels", .strList (flatLabels (lf.filter (fun f => f.type = .EXCLUDE))))]
  else qb

/-- Lines 160-188: label filters, partitioned into INCLUDE and EXCLUDE. -/
def applyLabels (args : SearchArgs) (qb : QB) : QB :=
  if listNonempty args.labelFilters then
    applyExcludes (args.labelFilters.getD []) (applyIncludes (args.labelFilters.getD []) qb)
  else qb

/-- The `forEach` body of lines 191-201: one inclusive BETWEEN per filter,
open bounds defaulting to epoch and `new Date()`. -/
def dateFold (now : Nat) : List DateFilter → QB → QB
  | [], qb => qb
  | f :: rest, qb =>
    dateFold now rest
      (qb.andWhereP (.fieldBetween f.field (f.field ++ "_start") (f.field ++ "_end"))
        [(f.field ++ "_start", .date (f.startDate.getD 0)),
         (f.field ++ "_end", .date (f.endDate.getD now))])

/-- Lines 190-202: date filters. -/
def applyDates (env : Env) (args : SearchArgs) (qb : QB) : QB :=
  if listNonempty args.dateFilters then dateFold env.now (args.dateFilters.getD []) qb
  else qb

/-- The `forEach` body of lines 205-210. -/
def termFold : List FieldFilter → QB → QB
  | [], qb => qb
  | f :: rest, qb =>
    termFold rest
      (qb.andWhereP (.fieldLowerEq f.field ("term_" ++ f.field))
        [("term_" ++ f.field, .str (lowerStr f.value))])

/-- Lines 204-211: term filters. -/
def applyTerms (args : SearchArgs) (qb : QB) : QB :=
  if listNonempty args.termFilters then termFold (args.termFilters.getD []) qb else qb

/-- The `forEach` body of lines 214-222. -/
def matchFold : List FieldFilter → QB → QB
  | [], qb => qb
  | f :: rest, qb =>
    matchFold rest
      (qb.andWhereP (.fieldTsMatch f.field ("match_" ++ f.field))
        [("match_" ++ f.field, .str f.value)])

/-- Lines 213-223: match filters. -/
def applyMatches (args : SearchArgs) (qb : QB) : QB :=
  if listNonempty args.matchFilters then matchFold (args.matchFilters.getD []) qb else qb

/-- Lines 225-227: id membership. -/
def applyIds (args : SearchArgs) (qb : QB) : QB :=
  if listNonempty args.ids then
    qb.andWhereP (.idIn "ids") [("ids", .strList (args.ids.getD []))]
  else qb

/-- Lines 229-233: unless pending items are included, exclude Processing. -/
def applyPending (args : SearchArgs) (qb : QB) : QB :=
  if !(args.includePending.getD false) then
    qb.andWhereP (.stateNe "state") [("state", .state .Processing)]
  else qb

/-- Lines 235-239: unless deleted items are included or the scope is TRASH,
exclude Deleted. -/
def applyDeleted (args : SearchArgs) (qb : QB) : QB :=
  if !(args.includeDeleted.getD false) && args.inFilter ≠ some .TRASH then
    qb.andWhereP (.stateNe "state") [("state", .state .Deleted)]
  else qb

/-- The `forEach` body of lines 242-244. -/
def noFold : List NoFilter → QB → QB
  | [], qb => qb
  | f :: rest, qb => noFold rest (qb.andWhereP (.fieldEmptyArray f.field) [])

/-- Lines 241-245: no-filters (guarded by mere presence of the array, which
is truthy even when empty). -/
def applyNo (args : SearchArgs) (qb : QB) : QB :=
  if args.noFilters.isSome then noFold (args.noFilters.getD []) qb else qb

/-- Lines 247-260: recommendation filter. -/
def applyRecommended (args : SearchArgs) (qb : QB) : QB :=
  if strTruthy args.recommendedBy then
    if args.recommendedBy.getD "" = "*" then qb.andWhereP .recommenderNonEmpty []
    else
      qb.andWhereP (.recommenderOverlap "recommendedBy")
        [("recommendedBy", .str (lowerStr (args.recommendedBy.getD "")))]
  else qb

/-- `buildWhereClause` (lines 81-261): the source's conditional blocks in
source order. -/
def buildWhereClause (env : Env) (args : SearchArgs) (qb : QB) : QB :=
  applyRecommended args
    (applyNo args
      (applyDeleted args
        (applyPending args
          (applyIds args
            (applyMatches args
              (applyTerms args
                (applyDates env args
                  (applyLabels args
                    (applyHas args
                      (applyRead args
                        (applyIn args
                          (applyType args
                            (applyQuery args qb)))))))))))))

/-! ### Sorting

`addOrderBy('library_item.' + sortField, sortOrder, 'NULLS LAST')`, layered
under the rank ordering when a free-text query installed one.  The store's
sort is modelled by an insertion sort with a boolean `≤`-test. -/

/-- Insert into a sorted list. -/
def insertSorted {α : Type} (le : α → α → Bool) (a : α) : List α → List α
  | [] => [a]
  | b :: bs => if le a b then a :: b :: bs else b :: insertSorted le a bs

/-- Sort by a boolean `≤`-test. -/
def sortByLe {α : Type} (le : α → α → Bool) : List α → List α
  | [] => []
  | a :: as => insertSorted le a (sortByLe le as)

/-- The sort key of an item for a sort field (NULL for an absent date). -/
def sortKey (f : SortBy) (item : LibraryItem) : Option Nat :=
  match f with
  | .SAVED => some item.savedAt
  | .UPDATED => some item.updatedAt
  | .PUBLISHED => item.publishedAt

/-- `x` may precede `y` under the requested field and direction, with NULLs
last regardless of direction. -/
def fieldLe (f : SortBy) (ord : SortOrder) (x y : LibraryItem) : Bool :=
  match sortKey f x, sortKey f y with
  | none, none => true
  | none, some _ => false
  | some _, none => true
  | some a, some b =>
    match ord with
    | .ASCENDING => a ≤ b
    | .DESCENDING => b ≤ a

/-- The combined order: rank descending first when the query installed a
rank ordering, then the requested field. -/
def itemLe (env : Env) (q : String) (rankFirst : Bool) (f : SortBy) (ord : SortOrder)
    (x y : LibraryItem) : Bool :=
  if rankFirst then
    let rx := env.tsRank q x
    let ry := env.tsRank q y
    if rx = ry then fieldLe f ord x y else ry < rx
  else fieldLe f ord x y

/-! ### `searchLibraryItems` (source lines 263-297) -/

/-- The builder state of a search: the user-ownership predicate installed by
`.where('library_item.user_id = :userId')`, then `buildWhereClause`. -/
def searchQB (env : Env) (args : SearchArgs) (userId : String) : QB :=
  buildWhereClause env args
    { clauses := [.userEq "userId"], params := [("userId", .str userId)], rankOrder := false }

/-- Line 270: `sort?.order || SortOrder.DESCENDING`. -/
def sortOrderOf (args : SearchArgs) : SortOrder :=
  (args.sort.bind SortSpec.order).getD .DESCENDING

/-- Line 272: `sort?.by || SortBy.SAVED`. -/
def sortFieldOf (args : SearchArgs) : SortBy :=
  (args.sort.bind SortSpec.by_).getD .SAVED

/-- `searchLibraryItems`: defaults `from = 0`, `size = 10`, order descending
by save time; returns the sorted page sliced by `skip/take` together with
the count of all matching rows (`getCount` ignores the pagination). -/
def searchLibraryItems (env : Env) (db : List LibraryItem) (args : SearchArgs)
    (userId : String) : List LibraryItem × Nat :=
  let fromN := args.from_.getD 0
  let size := args.size.getD 10
  let qb := searchQB env args userId
  let matched := db.filter (runClauses env qb)
  let sorted :=
    sortByLe (itemLe env (args.query.getD "") qb.rankOrder (sortFieldOf args) (sortOrderOf args))
      matched
  ((sorted.drop fromN).take size, matched.length)

/-! ### `findLibraryItemsByPrefix` (source lines 435-452) -/

/-- `ILIKE :p` where the bound pattern is the caller's string with a
trailing `%`: a case-insensitive prefix test. -/
def ilikeStarts (s : String) (pat : String) : Bool :=
  chPrefix (lowerStr pat).data (lowerStr s).data

/-- A row matched by the prefix lookup: title or site name starts with the
pattern, case-insensitively.  No user predicate is emitted. -/
def prefixMatches (pat : String) (item : LibraryItem) : Bool :=
  ilikeStarts item.title pat ||
    (match item.siteName with
     | some s => ilikeStarts s pat
     | none => false)

/-- `findLibraryItemsByPrefix`: matching rows of the whole table, ordered by
save time descending, capped at `limit` (default 5). -/
def findLibraryItemsByPrefix (db : List LibraryItem) (pat : String)
    (limit : Nat := 5) : List LibraryItem :=
  (sortByLe (fieldLe .SAVED .DESCENDING) (db.filter (prefixMatches pat))).take limit

/-! ### Single-item mutations (source lines 338-433) -/

/-- The `switch (libraryItem.state)` of lines 367-379: state-derived
timestamp stamping applied to the caller's patch (the source mutates the
patch object in place). -/
def deriveTimestamps (now : Nat) (p : Patch) : Patch :=
  match p.state with
  | some .Archived => { p with archivedAt := some (some now) }
  | some .Deleted => { p with deletedAt := some (some now) }
  | some .Processing => { p with archivedAt := some none, deletedAt := some none }
  | some .Succeeded => { p with archivedAt := some none, deletedAt := some none }
  | none => p

/-- Application of a partial entity to a row (`repository.update`). -/
def applyPatch (p : Patch) (it : LibraryItem) : LibraryItem :=
  { it with
    state := p.state.getD it.state
    archivedAt := p.archivedAt.getD it.archivedAt
    deletedAt := p.deletedAt.getD it.deletedAt
    savedAt := p.savedAt.getD it.savedAt
    readAt := p.readAt.getD it.readAt
    readingProgressTopPercent := p.readingProgressTopPercent.getD it.readingProgressTopPercent
    readingProgressBottomPercent :=
      p.readingProgressBottomPercent.getD it.readingProgressBottomPercent }

deriving instance DecidableEq for Except

/-- Outcome of a single-item mutation: the value or error surfaced to the
caller, the table after the call, and the payload handed to the
change-notification collaborator (if the call reached it). -/
structure UpdateOutcome where
  result : Except String LibraryItem
  db : List LibraryItem
  published : Option (Patch × String)
deriving DecidableEq

/-- `updateLibraryItem` (lines 356-396).  Inside the transaction the patch
is stamped and applied and the row re-fetched (`findOneByOrFail`; failure
rolls the transaction back).  After commit, `pubsub.entityUpdated` receives
the mutated patch object spread together with the id; it is awaited with no
try/catch, so a throwing collaborator (`pubsubFails`) rejects the whole
call — after the commit. -/
def updateLibraryItem (env : Env) (id : String) (p : Patch) (_userId : String)
    (pubsubFails : Bool) (db : List LibraryItem) : UpdateOutcome :=
  let p' := deriveTimestamps env.now p
  let db' := db.map (fun it => if it.id = id then applyPatch p' it else it)
  match db'.find? (fun it => it.id = id) with
  | none => { result := .error "EntityNotFound", db := db, published := none }
  | some it =>
    if pubsubFails then
      { result := .error "pubsub failed", db := db', published := some (p', id) }
    else
      { result := .ok it, db := db', published := some (p', id) }

/-- `restoreLibraryItem` (lines 338-354): update with state `Succeeded`,
`savedAt = now`, both timestamps nulled. -/
def restoreLibraryItem (env : Env) (id : String) (userId : String)
    (pubsubFails : Bool) (db : List LibraryItem) : UpdateOutcome :=
  updateLibraryItem env id
    { state := some .Succeeded, savedAt := some env.now,
      archivedAt := some none, deletedAt := some none }
    userId pubsubFails db

/-- Modelled from the spec: `wordsCount` comes from `utils/helpers` which is
not under `src/`; §4.4 says the word count is computed "by tokenizing the
readable content on whitespace-like boundaries and counting tokens". -/
def countTokens : List Char → Bool → Nat
  | [], _ => 0
  | c :: rest, inWord =>
    if c.isWhitespace then countTokens rest false
    else (if inWord then 0 else 1) + countTokens rest true

/-- Modelled from the spec: number of whitespace-separated tokens. -/
def wordsCount (s : String) : Nat := countTokens s.data false

/-- Outcome of `createLibraryItem`. -/
structure CreateOutcome where
  result : Except String LibraryItem
  db : List LibraryItem
  published : Option LibraryItem
deriving DecidableEq

/-- `createLibraryItem` (lines 409-433): persist with the word count
defaulted from the readable content, then notify; the notification is
awaited with no try/catch, after the commit. -/
def createLibraryItem (_env : Env) (item : LibraryItem) (_userId : String)
    (pubsubFails : Bool) (db : List LibraryItem) : CreateOutcome :=
  let saved := { item with wordCount := some (item.wordCount.getD (wordsCount item.readableContent)) }
  let db' := db ++ [saved]
  if pubsubFails then { result := .error "pubsub failed", db := db', published := some saved }
  else { result := .ok saved, db := db', published := some saved }

/-! ### `updateLibraryItems` — the bulk action (source lines 473-539) -/

/-- The store visible to the bulk action: the item table and the
label-attachment join table. -/
structure StoreState where
  items : List LibraryItem
  entityLabels : List EntityLabel
deriving DecidableEq

/-- Modelled from the spec: `BulkActionType` is a generated GraphQL enum
(not under `src/`) whose kinds are Archive, Delete, AddLabels and
MarkAsRead (§4.5); at runtime the TypeScript value is a string, and any
other string reaches the `default:` arm.  The field-set patch and the
add-labels flag computed by the `switch` of lines 479-506. -/
def parseBulkAction (now : Nat) (action : String) : Option (Patch × Bool) :=
  if action = "ARCHIVE" then
    some ({ archivedAt := some (some now), state := some .Archived }, false)
  else if action = "DELETE" then
    some ({ deletedAt := some (some now), state := some .Deleted }, false)
  else if action = "ADD_LABELS" then some ({}, true)
  else if action = "MARK_AS_READ" then
    some ({ readAt := some (some now), readingProgressTopPercent := some 100,
            readingProgressBottomPercent := some 100 }, false)
  else none

/-- The join rows to insert for one fetched item: one per requested label
not already attached (lines 521-533). -/
def labelsToAddFor (ls : List Label) (it : LibraryItem) : List EntityLabel :=
  (ls.map (fun l => EntityLabel.mk l.id it.id)).filter
    (fun el => !(it.labels.any (fun l => l.id = el.labelId)))

/-- All join rows for the matched set. -/
def bulkLabelRows (ls : List Label) : List LibraryItem → List EntityLabel
  | [] => []
  | it :: rest => labelsToAddFor ls it ++ bulkLabelRows ls rest

/-- `updateLibraryItems` (lines 473-539).  An unknown action kind throws
before the transaction; `ADD_LABELS` without labels throws inside the
transaction before any read or write; otherwise either the join rows are
bulk-inserted or one set-wide UPDATE is applied to every matching row.  The
builder starts empty: no user predicate is installed and no user id is
handed to the transaction helper. -/
def updateLibraryItems (env : Env) (action : String) (args : SearchArgs)
    (labels : Option (List Label)) (st : StoreState) : Except String Unit × StoreState :=
  match parseBulkAction env.now action with
  | none => (.error "Invalid bulk action", st)
  | some (values, addLabels) =>
    let qb := buildWhereClause env args {}
    if addLabels then
      match labels with
      | none => (.error "Labels are required for this action", st)
      | some ls =>
        let matched := st.items.filter (runClauses env qb)
        (.ok (), { st with entityLabels := st.entityLabels ++ bulkLabelRows ls matched })
    else
      (.ok (),
        { st with
          items := st.items.map (fun it => if runClauses env qb it then applyPatch values it else it) })

/-! ### Specification-side descriptions of emitted clause lists

Used to state what the folds of `buildWhereClause` emit. -/

/-- The include-label clauses, index-named from `i`. -/
def incClauses (i : Nat) : List LabelFilter → List Clause
  | [] => []
  | _ :: rest => .labelsOverlap (incName i) :: incClauses (i + 1) rest

/-- The include-label bindings, index-named from `i`. -/
def incParams (i : Nat) : List LabelFilter → List (String × PVal)
  | [] => []
  | f :: rest => (incName i, .strList f.labels) :: incParams (i + 1) rest

/-- The date-filter clauses. -/
def dateClauses : List DateFilter → List Clause
  | [] => []
  | f :: rest =>
    .fieldBetween f.field (f.field ++ "_start") (f.field ++ "_end") :: dateClauses rest

/-- The date-filter bindings. -/
def dateParams (now : Nat) : List DateFilter → List (String × PVal)
  | [] => []
  | f :: rest =>
    (f.field ++ "_start", .date (f.startDate.getD 0)) ::
      (f.field ++ "_end", .date (f.endDate.getD now)) :: dateParams now rest

/-- The parameter names bound by the date filters. -/
def dateNames : List DateFilter → List String
  | [] => []
  | f :: rest => (f.field ++ "_start") :: (f.field ++ "_end") :: dateNames rest

/-- The term-filter clauses. -/
def termClauses : List FieldFilter → List Clause
  | [] => []
  | f :: rest => .fieldLowerEq f.field ("term_" ++ f.field) :: termClauses rest

/-- The term-filter bindings. -/
def termParams : List FieldFilter → List (String × PVal)
  | [] => []
  | f :: rest => ("term_" ++ f.field, .str (lowerStr f.value)) :: termParams rest

/-- The parameter names bound by the term filters. -/
def termNames : List FieldFilter → List String
  | [] => []
  | f :: rest => ("term_" ++ f.field) :: termNames rest

/-- The match-filter clauses. -/
def matchClauses : List FieldFilter → List Clause
  | [] => []
  | f :: rest => .fieldTsMatch f.field ("match_" ++ f.field) :: matchClauses rest

/-- The match-filter bindings. -/
def matchParams : List FieldFilter → List (String × PVal)
  | [] => []
  | f :: rest => ("match_" ++ f.field, .str f.value) :: matchParams rest

/-- The parameter names bound by the match filters. -/
def matchNames : List FieldFilter → List String
  | [] => []
  | f :: rest => ("match_" ++ f.field) :: matchNames rest

/-- The single exclude clause, when some EXCLUDE entry exists. -/
def exClauses (lf : List LabelFilter) : List Clause :=
  if (lf.filter (fun f => f.type = .EXCLUDE)).isEmpty then []
  else [.notLabelsOverlap "excludeLabels"]

/-- The single exclude binding: the union of all excluded label sets. -/
def exParams (lf : List LabelFilter) : List (String × PVal) :=
  if (lf.filter (fun f => f.type = .EXCLUDE)).isEmpty then []
  else [("excludeLabels", .strList (flatLabels (lf.filter (fun f => f.type = .EXCLUDE))))]

/-- The names of all bound parameters, in binding order. -/
def paramNames (qb : QB) : List String := qb.params.map Prod.fst

/-- Whether a clause is the user-ownership predicate. -/
def isUserClause : Clause → Bool
  | .userEq _ => true
  | _ => false

/-- The shapes of parameter names `buildWhereClause` can bind.  None of them
is the search service's `userId` binding. -/
def GenName (s : String) : Prop :=
  s = "query" ∨ s = "typeFilter" ∨ (∃ i, s = incName i) ∨ s = "excludeLabels" ∨
    (∃ f, s = f ++ "_start") ∨ (∃ f, s = f ++ "_end") ∨ (∃ f, s = "term_" ++ f) ∨
    (∃ f, s = "match_" ++ f) ∨ s = "ids" ∨ s = "state" ∨ s = "recommendedBy"

/-- `qb'` extends `qb` by appending clauses (none of them the user
predicate) and bindings (all with generated names). -/
def AppendsAt (qb qb' : QB) : Prop :=
  ∃ dc dp,
    qb'.clauses = qb.clauses ++ dc ∧ qb'.params = qb.params ++ dp ∧
      (∀ c ∈ dc, isUserClause c = false) ∧ ∀ p ∈ dp, GenName p.1

/-- The row persisted by `createLibraryItem` (lines 416-421). -/
def savedItem (item : LibraryItem) : LibraryItem :=
  { item with wordCount := some (item.wordCount.getD (wordsCount item.readableContent)) }

/-! ### Concrete fixtures for witnesses and counterexamples -/

/-- A fixed clock (120 days after the epoch) with inert text-search
oracles. -/
def env0 : Env :=
  { now := 10368000000000, tsMatch := fun _ _ => false,
    tsMatchField := fun _ _ _ => false, tsRank := fun _ _ => 0 }

/-- A plain active row owned by user `u`. -/
def item0 : LibraryItem :=
  { id := "i1", userId := "u", title := "World News", siteName := some "Wonder Times",
    author := none, originalUrl := "http://example.com/a", itemType := "article",
    state := .Succeeded, savedAt := 5, createdAt := 1, updatedAt := 2, publishedAt := none,
    readAt := none, archivedAt := none, deletedAt := none, readingProgressTopPercent := 0,
    readingProgressBottomPercent := 0, wordCount := none, readableContent := "one two three",
    subscription := none, language := none, labelNames := ["A"], highlightLabels := [],
    highlightAnnotations := [], recommenderNames := [], labels := [] }

/-- The same row owned by a different user. -/
def otherItem : LibraryItem := { item0 with userId := "other" }

/-- A row still in the Processing state. -/
def procItem : LibraryItem := { item0 with id := "i2", state := .Processing }

/-- A soft-deleted row whose `deletedAt` lies one day in the future of the
fixed clock. -/
def itemFuture : LibraryItem :=
  { item0 with id := "i3", state := .Deleted, deletedAt := some (10368000000000 + 86400000) }

/-- The TRASH-scope filter specification. -/
def argsTrash : SearchArgs := { inFilter := some .TRASH }

/-- Two date filters on the same field. -/
def argsSameFieldDates : SearchArgs :=
  { dateFilters := some [{ field := "saved_at" }, { field := "saved_at", startDate := some 1 }] }

/-- A filter specification carrying only label filters. -/
def argsLabels (lf : List LabelFilter) : SearchArgs := { labelFilters := some lf }

/-- A filter specification carrying only date filters. -/
def argsDates (dfs : List DateFilter) : SearchArgs := { dateFilters := some dfs }

/-- A filter specification carrying only term filters. -/
def argsTerms (tfs : List FieldFilter) : SearchArgs := { termFilters := some tfs }

/-- A filter specification carrying only match filters. -/
def argsMatches (mfs : List FieldFilter) : SearchArgs := { matchFilters := some mfs }

/-- Pagination `from = 10`, `size = 5`. -/
def args95 : SearchArgs := { from_ := some 10, size := some 5 }

/-- Twelve matching rows for the pagination witness. -/
def db12 : List LibraryItem :=
  (List.range 12).map (fun k => { item0 with id := natToDec k, savedAt := k })

/-- A patch that only sets the state to Archived. -/
def patchArchive : Patch := { state := some .Archived }

/-- A row soft-deleted fifteen days before the fixed clock. -/
def item15 : LibraryItem :=
  { item0 with id := "i4", state := .Deleted, deletedAt := some 10366704000000 }

/-- One INCLUDE entry and one EXCLUDE entry. -/
def lfW : List LabelFilter := [⟨.INCLUDE, ["a"]⟩, ⟨.EXCLUDE, ["b"]⟩]

/-! ## Lemmas -/

/-! ### Decimal rendering is injective -/

theorem decValAux_append (xs ys : List Char) (a : Nat) :
    decValAux a (xs ++ ys) = decValAux (decValAux a xs) ys := by
  induction xs generalizing a with
  | nil => rfl
  | cons c l ih => simpa [decValAux] using ih (10 * a + charVal c)

theorem decVal_snoc (xs : List Char) (c : Char) :
    decVal (xs ++ [c]) = 10 * decVal xs + charVal c := by
  rw [decVal, decValAux_append]; rfl

theorem charVal_digitChar (d : Nat) (h : d < 10) : charVal (digitChar d) = d := by
  interval_cases d <;> rfl

theorem decVal_decDigitsAux : ∀ fuel n, n ≤ fuel → decVal (decDigitsAux fuel n) = n := by
  intro fuel
  induction fuel with
  | zero => intro n h; interval_cases n; rfl
  | succ fuel ih =>
    intro n h
    match n with
    | 0 => rfl
    | m + 1 =>
      rw [show decDigitsAux (fuel + 1) (m + 1) =
            decDigitsAux fuel ((m + 1) / 10) ++ [digitChar ((m + 1) % 10)] from rfl,
        decVal_snoc, ih ((m + 1) / 10) (by omega),
        charVal_digitChar _ (Nat.mod_lt _ (by omega))]
      omega

theorem decVal_natToDec (n : Nat) : decVal (natToDec n).data = n := by
  by_cases h : n = 0
  · subst h; rfl
  · rw [natToDec, if_neg h]
    exact decVal_decDigitsAux n n le_rfl

theorem natToDec_inj {a b : Nat} (h : natToDec a = natToDec b) : a = b := by
  have := congrArg (fun s => decVal s.data) h
  simpa [decVal_natToDec] using this

theorem incName_inj {i j : Nat} (h : incName i = incName j) : i = j := by
  have hd := congrArg String.data h
  rw [incName, incName, String.data_append, String.data_append] at hd
  exact natToDec_inj (String.ext (List.append_cancel_left hd))

/-! ### String-append inequality and cancellation helpers -/

theorem chPrefix_append_ne (p rest t : List Char) (h : chPrefix p t = false) :
    p ++ rest ≠ t := by
  induction p generalizing t with
  | nil => simp [chPrefix] at h
  | cons a as ih =>
    cases t with
    | nil => simp
    | cons b bs =>
      intro he
      rw [List.cons_append] at he
      have hab : a = b := (List.cons_eq_cons.mp he).1
      have htl : as ++ rest = bs := (List.cons_eq_cons.mp he).2
      rw [chPrefix, hab] at h
      simp at h
      exact ih bs h htl

theorem str_pre_ne (pre b t : String) (h : chPrefix pre.data t.data = false) :
    pre ++ b ≠ t := by
  intro he
  exact chPrefix_append_ne pre.data b.data t.data h (by rw [← String.data_append, he])

theorem str_suf_ne (a suf t : String)
    (h : chPrefix suf.data.reverse t.data.reverse = false) : a ++ suf ≠ t := by
  intro he
  apply chPrefix_append_ne suf.data.reverse a.data.reverse t.data.reverse h
  have hd : a.data ++ suf.data = t.data := by
    rw [← String.data_append, he]
  calc suf.data.reverse ++ a.data.reverse
      = (a.data ++ suf.data).reverse := (List.reverse_append _ _).symm
    _ = t.data.reverse := by rw [hd]

theorem str_append_right_cancel {f g : String} (suf : String) (h : f ++ suf = g ++ suf) :
    f = g := by
  have hd := congrArg String.data h
  rw [String.data_append, String.data_append] at hd
  exact String.ext (List.append_cancel_right hd)

theorem str_append_left_cancel {f g : String} (pre : String) (h : pre ++ f = pre ++ g) :
    f = g := by
  have hd := congrArg String.data h
  rw [String.data_append, String.data_append] at hd
  exact String.ext (List.append_cancel_left hd)

/-! ### Parameter lookup -/

theorem lookupParam_append (a b : List (String × PVal)) (k : String) :
    lookupParam (a ++ b) k =
      match lookupParam b k with
      | some w => some w
      | none => lookupParam a k := by
  induction a with
  | nil => cases h : lookupParam b k <;> simp [h, lookupParam]
  | cons hd tl ih =>
    obtain ⟨n, v⟩ := hd
    cases hb : lookupParam b k <;> cases ht : lookupParam tl k <;>
      simp [lookupParam, hb, ht, ih]

theorem lookupParam_eq_none (b : List (String × PVal)) (k : String)
    (h : ∀ p ∈ b, p.1 ≠ k) : lookupParam b k = none := by
  induction b with
  | nil => rfl
  | cons hd tl ih =>
    obtain ⟨n, v⟩ := hd
    have hn : n ≠ k := h (n, v) (by simp)
    rw [lookupParam, ih (fun p hp => h p (List.mem_cons_of_mem _ hp))]
    simp [hn]

theorem lookupParam_append_right_none (a b : List (String × PVal)) (k : String)
    (h : ∀ p ∈ b, p.1 ≠ k) : lookupParam (a ++ b) k = lookupParam a k := by
  rw [lookupParam_append, lookupParam_eq_none b k h]

/-! ### Generated parameter names never collide with the user binding -/

theorem genName_ne_userId {s : String} (h : GenName s) : s ≠ "userId" := by
  rcases h with h | h | ⟨i, h⟩ | h | ⟨f, h⟩ | ⟨f, h⟩ | ⟨f, h⟩ | ⟨f, h⟩ | h | h | h <;> subst h
  · decide
  · decide
  · exact str_pre_ne "includeLabels_" (natToDec i) "userId" (by decide)
  · decide
  · exact str_suf_ne f "_start" "userId" (by decide)
  · exact str_suf_ne f "_end" "userId" (by decide)
  · exact str_pre_ne "term_" f "userId" (by decide)
  · exact str_pre_ne "match_" f "userId" (by decide)
  · decide
  · decide
  · decide

/-! ### The append-only discipline of `buildWhereClause` -/

theorem AppendsAt.rfl (qb : QB) : AppendsAt qb qb :=
  ⟨[], [], (List.append_nil _).symm, (List.append_nil _).symm, by simp, by simp⟩

theorem AppendsAt.single (qb : QB) (c : Clause) (binds : List (String × PVal))
    (hc : isUserClause c = false) (hb : ∀ p ∈ binds, GenName p.1) :
    AppendsAt qb (qb.andWhereP c binds) :=
  ⟨[c], binds, Eq.refl _, Eq.refl _, by simpa using hc, hb⟩

theorem AppendsAt.trans {a b c : QB} (h1 : AppendsAt a b) (h2 : AppendsAt b c) :
    AppendsAt a c := by
  obtain ⟨dc1, dp1, hc1, hp1, hu1, hg1⟩ := h1
  obtain ⟨dc2, dp2, hc2, hp2, hu2, hg2⟩ := h2
  refine ⟨dc1 ++ dc2, dp1 ++ dp2, ?_, ?_, ?_, ?_⟩
  · rw [hc2, hc1, List.append_assoc]
  · rw [hp2, hp1, List.append_assoc]
  · intro x hx
    rcases List.mem_append.mp hx with h | h
    · exact hu1 x h
    · exact hu2 x h
  · intro p hp
    rcases List.mem_append.mp hp with h | h
    · exact hg1 p h
    · exact hg2 p h

theorem appendsAt_applyQuery (args : SearchArgs) (qb : QB) :
    AppendsAt qb (applyQuery args qb) := by
  unfold applyQuery
  by_cases h : strTruthy args.query
  · rw [if_pos h]
    exact AppendsAt.single qb _ _ (by rfl)
      (by intro p hp; rw [List.mem_singleton] at hp; subst hp; exact Or.inl (Eq.refl _))
  · rw [if_neg h]
    exact AppendsAt.rfl qb

theorem appendsAt_applyType (args : SearchArgs) (qb : QB) :
    AppendsAt qb (applyType args qb) := by
  unfold applyType
  by_cases h : strTruthy args.typeFilter
  · rw [if_pos h]
    exact AppendsAt.single qb _ _ (by rfl)
      (by intro p hp; rw [List.mem_singleton] at hp; subst hp
          exact Or.inr (Or.inl (Eq.refl _)))
  · rw [if_neg h]
    exact AppendsAt.rfl qb

theorem appendsAt_applyIn (args : SearchArgs) (qb : QB) :
    AppendsAt qb (applyIn args qb) := by
  unfold applyIn
  by_cases h : args.inFilter = some .ALL
  · rw [if_pos h]
    exact AppendsAt.rfl qb
  · rw [if_neg h]
    cases hin : args.inFilter with
    | none => exact AppendsAt.rfl qb
    | some f =>
      cases f with
      | ALL => exact AppendsAt.rfl qb
      | INBOX => exact AppendsAt.single qb _ _ (by rfl) (by simp)
      | ARCHIVE => exact AppendsAt.single qb _ _ (by rfl) (by simp)
      | TRASH => exact AppendsAt.single qb _ _ (by rfl) (by simp)
      | SUBSCRIPTION =>
        exact .trans (.single qb _ [] (by rfl) (by simp))
          (.trans (.single _ _ [] (by rfl) (by simp))
            (.single _ _ [] (by rfl) (by simp)))
      | LIBRARY =>
        exact .trans (.single qb _ [] (by rfl) (by simp))
          (.single _ _ [] (by rfl) (by simp))

theorem appendsAt_applyRead (args : SearchArgs) (qb : QB) :
    AppendsAt qb (applyRead args qb) := by
  unfold applyRead
  by_cases h : args.readFilter = some .ALL
  · rw [if_pos h]
    exact AppendsAt.rfl qb
  · rw [if_neg h]
    cases hr : args.readFilter with
    | none => exact AppendsAt.rfl qb
    | some f =>
      cases f with
      | ALL => exact AppendsAt.rfl qb
      | READ => exact AppendsAt.single qb _ _ (by rfl) (by simp)
      | UNREAD => exact AppendsAt.single qb _ _ (by rfl) (by simp)

theorem appendsAt_hasFold : ∀ (l : List HasFilter) (qb : QB), AppendsAt qb (hasFold l qb) := by
  intro l
  induction l with
  | nil => intro qb; exact AppendsAt.rfl qb
  | cons h t ih =>
    intro qb
    cases h with
    | HIGHLIGHTS => exact .trans (.single qb _ [] (by rfl) (by simp)) (ih _)
    | LABELS => exact .trans (.single qb _ [] (by rfl) (by simp)) (ih _)

theorem appendsAt_applyHas (args : SearchArgs) (qb : QB) :
    AppendsAt qb (applyHas args qb) := by
  unfold applyHas
  by_cases h : listNonempty args.hasFilters
  · rw [if_pos h]
    exact appendsAt_hasFold _ qb
  · rw [if_neg h]
    exact AppendsAt.rfl qb

theorem appendsAt_includeFold :
    ∀ (l : List LabelFilter) (i : Nat) (qb : QB), AppendsAt qb (includeFold i l qb) := by
  intro l
  induction l with
  | nil => intro i qb; exact AppendsAt.rfl qb
  | cons f t ih =>
    intro i qb
    refine .trans (.single qb _ _ (by rfl) ?_) (ih (i + 1) _)
    intro p hp
    rw [List.mem_singleton] at hp
    subst hp
    exact Or.inr (Or.inr (Or.inl ⟨i, Eq.refl _⟩))

theorem appendsAt_applyIncludes (lf : List LabelFilter) (qb : QB) :
    AppendsAt qb (applyIncludes lf qb) := by
  unfold applyIncludes
  split
  · exact appendsAt_includeFold _ 0 qb
  · exact AppendsAt.rfl qb

theorem appendsAt_applyExcludes (lf : List LabelFilter) (qb : QB) :
    AppendsAt qb (applyExcludes lf qb) := by
  unfold applyExcludes
  split
  · refine AppendsAt.single qb _ _ (by rfl) ?_
    intro p hp
    rw [List.mem_singleton] at hp
    subst hp
    exact Or.inr (Or.inr (Or.inr (Or.inl (Eq.refl _))))
  · exact AppendsAt.rfl qb

theorem appendsAt_applyLabels (args : SearchArgs) (qb : QB) :
    AppendsAt qb (applyLabels args qb) := by
  unfold applyLabels
  split
  · exact .trans (appendsAt_applyIncludes _ qb) (appendsAt_applyExcludes _ _)
  · exact AppendsAt.rfl qb

theorem appendsAt_dateFold (now : Nat) :
    ∀ (l : List DateFilter) (qb : QB), AppendsAt qb (dateFold now l qb) := by
  intro l
  induction l with
  | nil => intro qb; exact AppendsAt.rfl qb
  | cons f t ih =>
    intro qb
    refine .trans (.single qb _ _ (by rfl) ?_) (ih _)
    intro p hp
    rcases List.mem_cons.mp hp with h | h
    · subst h
      exact Or.inr (Or.inr (Or.inr (Or.inr (Or.inl ⟨f.field, Eq.refl _⟩))))
    · rw [List.mem_singleton] at h
      subst h
      exact Or.inr (Or.inr (Or.inr (Or.inr (Or.inr (Or.inl ⟨f.field, Eq.refl _⟩)))))

theorem appendsAt_applyDates (env : Env) (args : SearchArgs) (qb : QB) :
    AppendsAt qb (applyDates env args qb) := by
  unfold applyDates
  split
  · exact appendsAt_dateFold _ _ qb
  · exact AppendsAt.rfl qb

theorem appendsAt_termFold :
    ∀ (l : List FieldFilter) (qb : QB), AppendsAt qb (termFold l qb) := by
  intro l
  induction l with
  | nil => intro qb; exact AppendsAt.rfl qb
  | cons f t ih =>
    intro qb
    refine .trans (.single qb _ _ (by rfl) ?_) (ih _)
    intro p hp
    rw [List.mem_singleton] at hp
    subst hp
    exact Or.inr (Or.inr (Or.inr (Or.inr (Or.inr (Or.inr (Or.inl ⟨f.field, Eq.refl _⟩))))))

theorem appendsAt_applyTerms (args : SearchArgs) (qb : QB) :
    AppendsAt qb (applyTerms args qb) := by
  unfold applyTerms
  split
  · exact appendsAt_termFold _ qb
  · exact AppendsAt.rfl qb

theorem appendsAt_matchFold :
    ∀ (l : List FieldFilter) (qb : QB), AppendsAt qb (matchFold l qb) := by
  intro l
  induction l with
  | nil => intro qb; exact AppendsAt.rfl qb
  | cons f t ih =>
    intro qb
    refine .trans (.single qb _ _ (by rfl) ?_) (ih _)
    intro p hp
    rw [List.mem_singleton] at hp
    subst hp
    exact Or.inr (Or.inr (Or.inr (Or.inr (Or.inr (Or.inr (Or.inr (Or.inl ⟨f.field, Eq.refl _⟩)))))))

theorem appendsAt_applyMatches (args : SearchArgs) (qb : QB) :
    AppendsAt qb (applyMatches args qb) := by
  unfold applyMatches
  split
  · exact appendsAt_matchFold _ qb
  · exact AppendsAt.rfl qb

theorem appendsAt_applyIds (args : SearchArgs) (qb : QB) :
    AppendsAt qb (applyIds args qb) := by
  unfold applyIds
  split
  · exact AppendsAt.single qb _ _ (by rfl)
      (by intro p hp; rw [List.mem_singleton] at hp; subst hp
          exact Or.inr (Or.inr (Or.inr (Or.inr (Or.inr (Or.inr (Or.inr (Or.inr
            (Or.inl (Eq.refl _))))))))))
  · exact AppendsAt.rfl qb

theorem genName_state : GenName "state" :=
  Or.inr (Or.inr (Or.inr (Or.inr (Or.inr (Or.inr (Or.inr (Or.inr (Or.inr
    (Or.inl (Eq.refl _))))))))))

theorem appendsAt_applyPending (args : SearchArgs) (qb : QB) :
    AppendsAt qb (applyPending args qb) := by
  unfold applyPending
  split
  · exact AppendsAt.single qb _ _ (by rfl)
      (by intro p hp; rw [List.mem_singleton] at hp; subst hp; exact genName_state)
  · exact AppendsAt.rfl qb

theorem appendsAt_applyDeleted (args : SearchArgs) (qb : QB) :
    AppendsAt qb (applyDeleted args qb) := by
  unfold applyDeleted
  split
  · exact AppendsAt.single qb _ _ (by rfl)
      (by intro p hp; rw [List.mem_singleton] at hp; subst hp; exact genName_state)
  · exact AppendsAt.rfl qb

theorem appendsAt_noFold : ∀ (l : List NoFilter) (qb : QB), AppendsAt qb (noFold l qb) := by
  intro l
  induction l with
  | nil => intro qb; exact AppendsAt.rfl qb
  | cons f t ih =>
    intro qb
    exact .trans (.single qb _ [] (by rfl) (by simp)) (ih _)

theorem appendsAt_applyNo (args : SearchArgs) (qb : QB) :
    AppendsAt qb (applyNo args qb) := by
  unfold applyNo
  split
  · exact appendsAt_noFold _ qb
  · exact AppendsAt.rfl qb

theorem appendsAt_applyRecommended (args : SearchArgs) (qb : QB) :
    AppendsAt qb (applyRecommended args qb) := by
  unfold applyRecommended
  split
  · split
    · exact AppendsAt.single qb _ [] (by rfl) (by simp)
    · exact AppendsAt.single qb _ _ (by rfl)
        (by intro p hp; rw [List.mem_singleton] at hp; subst hp
            exact Or.inr (Or.inr (Or.inr (Or.inr (Or.inr (Or.inr (Or.inr (Or.inr
              (Or.inr (Or.inr (Eq.refl _)))))))))))
  · exact AppendsAt.rfl qb

/-- `buildWhereClause` only appends: no emitted clause is the
user-ownership predicate, and every binding it adds uses a generated
name. -/
theorem appendsAt_buildWhereClause (env : Env) (args : SearchArgs) (qb : QB) :
    AppendsAt qb (buildWhereClause env args qb) := by
  unfold buildWhereClause
  exact .trans (appendsAt_applyQuery args qb)
    (.trans (appendsAt_applyType args _)
      (.trans (appendsAt_applyIn args _)
        (.trans (appendsAt_applyRead args _)
          (.trans (appendsAt_applyHas args _)
            (.trans (appendsAt_applyLabels args _)
              (.trans (appendsAt_applyDates env args _)
                (.trans (appendsAt_applyTerms args _)
                  (.trans (appendsAt_applyMatches args _)
                    (.trans (appendsAt_applyIds args _)
                      (.trans (appendsAt_applyPending args _)
                        (.trans (appendsAt_applyDeleted args _)
                          (.trans (appendsAt_applyNo args _)
                            (appendsAt_applyRecommended args _)))))))))))))

/-! ### Sorting preserves length and membership -/

theorem length_insertSorted {α : Type} (le : α → α → Bool) (a : α) :
    ∀ l : List α, (insertSorted le a l).length = l.length + 1 := by
  intro l
  induction l with
  | nil => rfl
  | cons b bs ih =>
    rw [insertSorted]
    split
    · rfl
    · simp [ih]

theorem length_sortByLe {α : Type} (le : α → α → Bool) :
    ∀ l : List α, (sortByLe le l).length = l.length := by
  intro l
  induction l with
  | nil => rfl
  | cons a as ih =>
    rw [sortByLe, length_insertSorted, ih]
    rfl

theorem mem_insertSorted {α : Type} (le : α → α → Bool) (a x : α) :
    ∀ l : List α, x ∈ insertSorted le a l ↔ x = a ∨ x ∈ l := by
  intro l
  induction l with
  | nil => simp [insertSorted]
  | cons b bs ih =>
    rw [insertSorted]
    split
    · simp [or_comm, or_assoc, or_left_comm]
    · simp [ih]
      tauto

theorem mem_sortByLe {α : Type} (le : α → α → Bool) (x : α) :
    ∀ l : List α, x ∈ sortByLe le l ↔ x ∈ l := by
  intro l
  induction l with
  | nil => simp [sortByLe]
  | cons a as ih =>
    rw [sortByLe, mem_insertSorted]
    simp [ih]

/-! ### Characterizations of the clause folds -/

theorem includeFold_eq :
    ∀ (l : List LabelFilter) (i : Nat) (qb : QB),
      includeFold i l qb =
        { qb with clauses := qb.clauses ++ incClauses i l,
                  params := qb.params ++ incParams i l } := by
  intro l
  induction l with
  | nil => intro i qb; cases qb; simp [includeFold, incClauses, incParams]
  | cons f t ih =>
    intro i qb
    rw [includeFold, ih]
    cases qb
    simp [QB.andWhereP, incClauses, incParams]

theorem dateFold_eq (now : Nat) :
    ∀ (l : List DateFilter) (qb : QB),
      dateFold now l qb =
        { qb with clauses := qb.clauses ++ dateClauses l,
                  params := qb.params ++ dateParams now l } := by
  intro l
  induction l with
  | nil => intro qb; cases qb; simp [dateFold, dateClauses, dateParams]
  | cons f t ih =>
    intro qb
    rw [dateFold, ih]
    cases qb
    simp [QB.andWhereP, dateClauses, dateParams]

theorem termFold_eq :
    ∀ (l : List FieldFilter) (qb : QB),
      termFold l qb =
        { qb with clauses := qb.clauses ++ termClauses l,
                  params := qb.params ++ termParams l } := by
  intro l
  induction l with
  | nil => intro qb; cases qb; simp [termFold, termClauses, termParams]
  | cons f t ih =>
    intro qb
    rw [termFold, ih]
    cases qb
    simp [QB.andWhereP, termClauses, termParams]

theorem matchFold_eq :
    ∀ (l : List FieldFilter) (qb : QB),
      matchFold l qb =
        { qb with clauses := qb.clauses ++ matchClauses l,
                  params := qb.params ++ matchParams l } := by
  intro l
  induction l with
  | nil => intro qb; cases qb; simp [matchFold, matchClauses, matchParams]
  | cons f t ih =>
    intro qb
    rw [matchFold, ih]
    cases qb
    simp [QB.andWhereP, matchClauses, matchParams]

theorem dateParams_names (now : Nat) :
    ∀ l : List DateFilter, (dateParams now l).map Prod.fst = dateNames l := by
  intro l
  induction l with
  | nil => rfl
  | cons f t ih => simp [dateParams, dateNames, ih]

theorem termParams_names :
    ∀ l : List FieldFilter, (termParams l).map Prod.fst = termNames l := by
  intro l
  induction l with
  | nil => rfl
  | cons f t ih => simp [termParams, termNames, ih]

theorem matchParams_names :
    ∀ l : List FieldFilter, (matchParams l).map Prod.fst = matchNames l := by
  intro l
  induction l with
  | nil => rfl
  | cons f t ih => simp [matchParams, matchNames, ih]

/-! ### Single-family filter specifications, end to end -/

theorem bwc_labels_eq (env : Env) (lf : List LabelFilter) (qb : QB) :
    buildWhereClause env (argsLabels lf) qb =
      ((applyLabels (argsLabels lf) qb).andWhereP (.stateNe "state")
          [("state", .state .Processing)]).andWhereP
        (.stateNe "state") [("state", .state .Deleted)] := rfl

theorem applyIncludes_eq (lf : List LabelFilter) (qb : QB) :
    applyIncludes lf qb = includeFold 0 (lf.filter (fun f => f.type = .INCLUDE)) qb := by
  unfold applyIncludes
  split
  · rfl
  · next h =>
    have he : (lf.filter (fun f => f.type = .INCLUDE)).isEmpty = true := by
      revert h
      cases (lf.filter (fun f => f.type = .INCLUDE)).isEmpty <;> simp
    rw [List.isEmpty_iff.mp he]
    rfl

theorem applyExcludes_eq (lf : List LabelFilter) (qb : QB) :
    applyExcludes lf qb =
      { qb with clauses := qb.clauses ++ exClauses lf,
                params := qb.params ++ exParams lf } := by
  unfold applyExcludes exClauses exParams
  by_cases h : (lf.filter (fun f => f.type = .EXCLUDE)).isEmpty
  · rw [if_neg (by simp [h]), if_pos h, if_pos h]
    cases qb
    simp
  · rw [if_pos (by simp [h]), if_neg h, if_neg h]
    cases qb
    simp [QB.andWhereP]

theorem applyLabels_eq (lf : List LabelFilter) (qb : QB) :
    applyLabels (argsLabels lf) qb =
      { qb with
        clauses := qb.clauses ++ incClauses 0 (lf.filter (fun f => f.type = .INCLUDE)) ++
          exClauses lf,
        params := qb.params ++ incParams 0 (lf.filter (fun f => f.type = .INCLUDE)) ++
          exParams lf } := by
  unfold applyLabels
  by_cases h : lf = []
  · subst h
    cases qb
    simp [listNonempty, incClauses, incParams, exClauses, exParams, argsLabels]
  · have : listNonempty (argsLabels lf).labelFilters = true := by
      show (!lf.isEmpty) = true
      cases lf with
      | nil => exact absurd rfl h
      | cons a l => rfl
    rw [if_pos this]
    show applyExcludes lf (applyIncludes lf qb) = _
    rw [applyIncludes_eq, includeFold_eq, applyExcludes_eq]

theorem bwc_dates_eq (env : Env) (dfs : List DateFilter) (qb : QB) :
    buildWhereClause env (argsDates dfs) qb =
      ((applyDates env (argsDates dfs) qb).andWhereP (.stateNe "state")
          [("state", .state .Processing)]).andWhereP
        (.stateNe "state") [("state", .state .Deleted)] := rfl

theorem applyDates_eq (env : Env) (dfs : List DateFilter) (qb : QB) :
    applyDates env (argsDates dfs) qb = dateFold env.now dfs qb := by
  unfold applyDates
  split
  · rfl
  · next h =>
    have he : dfs.isEmpty = true := by
      revert h
      show ¬ (listNonempty (argsDates dfs).dateFilters = true) → _
      cases dfs <;> simp [listNonempty, argsDates]
    rw [List.isEmpty_iff.mp he]
    rfl

theorem bwc_terms_eq (env : Env) (tfs : List FieldFilter) (qb : QB) :
    buildWhereClause env (argsTerms tfs) qb =
      ((applyTerms (argsTerms tfs) qb).andWhereP (.stateNe "state")
          [("state", .state .Processing)]).andWhereP
        (.stateNe "state") [("state", .state .Deleted)] := rfl

theorem applyTerms_eq (tfs : List FieldFilter) (qb : QB) :
    applyTerms (argsTerms tfs) qb = termFold tfs qb := by
  unfold applyTerms
  split
  · rfl
  · next h =>
    have he : tfs.isEmpty = true := by
      revert h
      show ¬ (listNonempty (argsTerms tfs).termFilters = true) → _
      cases tfs <;> simp [listNonempty, argsTerms]
    rw [List.isEmpty_iff.mp he]
    rfl

theorem bwc_matches_eq (env : Env) (mfs : List FieldFilter) (qb : QB) :
    buildWhereClause env (argsMatches mfs) qb =
      ((applyMatches (argsMatches mfs) qb).andWhereP (.stateNe "state")
          [("state", .state .Processing)]).andWhereP
        (.stateNe "state") [("state", .state .Deleted)] := rfl

theorem applyMatches_eq (mfs : List FieldFilter) (qb : QB) :
    applyMatches (argsMatches mfs) qb = matchFold mfs qb := by
  unfold applyMatches
  split
  · rfl
  · next h =>
    have he : mfs.isEmpty = true := by
      revert h
      show ¬ (listNonempty (argsMatches mfs).matchFilters = true) → _
      cases mfs <;> simp [listNonempty, argsMatches]
    rw [List.isEmpty_iff.mp he]
    rfl

/-- Appending the Deleted-state binding last makes it the resolved value of
`state`, whatever was bound before — the later binding overwrites the
earlier one. -/
theorem lookup_state_deleted (ps : List (String × PVal)) :
    lookupParam (ps ++ [("state", .state .Deleted)]) "state" =
      some (.state .Deleted) := by
  rw [lookupParam_append]
  rfl

/-! ### Resolving the indexed include-label bindings -/

theorem incName_ne {i j : Nat} (h : i ≠ j) : incName i ≠ incName j :=
  fun he => h (incName_inj he)

theorem lookup_incParams_lt :
    ∀ (l : List LabelFilter) (k i : Nat), i < k →
      lookupParam (incParams k l) (incName i) = none := by
  intro l
  induction l with
  | nil => intro k i _; rfl
  | cons f t ih =>
    intro k i hik
    rw [incParams, lookupParam, ih (k + 1) i (by omega)]
    simp [incName_ne (by omega : k ≠ i)]

theorem lookup_incParams :
    ∀ (l : List LabelFilter) (k i : Nat) (d : LabelFilter), k ≤ i → i < k + l.length →
      lookupParam (incParams k l) (incName i) =
        some (.strList ((l.getD (i - k) d).labels)) := by
  intro l
  induction l with
  | nil => intro k i d h1 h2; simp at h2; omega
  | cons f t ih =>
    intro k i d h1 h2
    rw [incParams, lookupParam]
    rcases Nat.eq_or_lt_of_le h1 with he | hlt
    · subst he
      rw [lookup_incParams_lt t (k + 1) k (by omega)]
      simp
    · rw [ih (k + 1) i d (by omega) (by simp at h2; omega)]
      have hik : i - k = (i - (k + 1)) + 1 := by omega
      rw [hik]
      rfl

/-! ### Helpers for the re-fetch after an update -/

theorem applyPatch_id (p : Patch) (it : LibraryItem) : (applyPatch p it).id = it.id := rfl

theorem find?_isSome_of_any (db : List LibraryItem) (id : String) (p : Patch)
    (h : db.any (fun it => it.id = id) = true) :
    ((db.map (fun it => if it.id = id then applyPatch p it else it)).find?
        (fun it => it.id = id)).isSome = true := by
  induction db with
  | nil => simp at h
  | cons x t ih =>
    rw [List.map_cons]
    by_cases hx : x.id = id
    · rw [if_pos hx, List.find?_cons_of_pos _ (by simp [applyPatch_id, hx])]
      rfl
    · rw [if_neg hx, List.find?_cons_of_neg _ (by simp [hx])]
      simp only [List.any_cons, Bool.or_eq_true] at h
      rcases h with h | h
      · exact absurd (of_decide_eq_true h) hx
      · exact ih h

theorem map_patch_of_find?_none (db : List LibraryItem) (id : String) (p : Patch)
    (h : (db.map (fun it => if it.id = id then applyPatch p it else it)).find?
        (fun it => it.id = id) = none) :
    db.map (fun it => if it.id = id then applyPatch p it else it) = db := by
  rw [List.find?_eq_none] at h
  have hne : ∀ x ∈ db, x.id ≠ id := by
    intro x hx he
    have hm : (if x.id = id then applyPatch p x else x) ∈
        db.map (fun it => if it.id = id then applyPatch p it else it) :=
      List.mem_map_of_mem _ hx
    have := h _ hm
    rw [if_pos he] at this
    exact this (by simpa [applyPatch_id] using he)
  calc db.map (fun it => if it.id = id then applyPatch p it else it)
      = db.map (fun it => it) := by
        apply List.map_congr_left
        intro x hx
        rw [if_neg (hne x hx)]
    _ = db := List.map_id' db

/-! ## Claims -/

/-- C7: for every update patch, setting state to Archived stamps
`archivedAt` to the current time and leaves the patch's `deletedAt` field
untouched; setting state to Deleted stamps `deletedAt`; setting state to
Processing or Succeeded nulls both timestamps even if previously set; a
patch without a state field derives neither timestamp.  The update applies
exactly the so-derived patch to the targeted row. -/
theorem c7_state_derived_timestamps :
    ∀ (now : Nat) (p : Patch),
      (p.state = some .Archived →
        deriveTimestamps now p = { p with archivedAt := some (some now) })
      ∧ (p.state = some .Deleted →
        deriveTimestamps now p = { p with deletedAt := some (some now) })
      ∧ ((p.state = some .Processing ∨ p.state = some .Succeeded) →
        deriveTimestamps now p = { p with archivedAt := some none, deletedAt := some none })
      ∧ (p.state = none → deriveTimestamps now p = p)
      ∧ ∀ (env : Env) (id u : String) (pf : Bool) (db : List LibraryItem),
          now = env.now →
          (updateLibraryItem env id p u pf db).db =
            db.map (fun it => if it.id = id then applyPatch (deriveTimestamps env.now p) it
              else it) := by
  intro now p
  refine ⟨?_, ?_, ?_, ?_, ?_⟩
  · intro h
    simp [deriveTimestamps, h]
  · intro h
    simp [deriveTimestamps, h]
  · rintro (h | h) <;> simp [deriveTimestamps, h]
  · intro h
    simp [deriveTimestamps, h]
  · intro env id u pf db _
    cases hf : (db.map fun it => if it.id = id then applyPatch (deriveTimestamps env.now p) it
        else it).find? (fun it => it.id = id) with
    | none =>
      have hmap := map_patch_of_find?_none db id (deriveTimestamps env.now p) hf
      simp only [updateLibraryItem, hf]
      exact hmap.symm
    | some it =>
      simp only [updateLibraryItem, hf]
      cases pf <;> rfl

/-- C7 witness: a patch setting state to Archived gets `archivedAt`
stamped. -/
theorem c7_witness :
    deriveTimestamps 5 patchArchive = { patchArchive with archivedAt := some (some 5) } :=
  (c7_state_derived_timestamps 5 patchArchive).1 rfl

/-- C10: an unknown bulk action kind fails before the transaction, and
AddLabels without a label set fails inside the transaction before any read
or write; in both cases the store is returned unchanged — no row updated
and no join row inserted. -/
theorem c10_invalid_actions :
    ∀ (env : Env) (action : String) (args : SearchArgs) (labels : Option (List Label))
      (st : StoreState),
      ((action ≠ "ARCHIVE" ∧ action ≠ "DELETE" ∧ action ≠ "ADD_LABELS" ∧
          action ≠ "MARK_AS_READ") →
        updateLibraryItems env action args labels st = (.error "Invalid bulk action", st))
      ∧ updateLibraryItems env "ADD_LABELS" args none st =
          (.error "Labels are required for this action", st) := by
  intro env action args labels st
  constructor
  · rintro ⟨h1, h2, h3, h4⟩
    unfold updateLibraryItems parseBulkAction
    rw [if_neg h1, if_neg h2, if_neg h3, if_neg h4]
  · rfl

/-- C10 witness: the unknown kind `"FOO"` is rejected with the store
untouched. -/
theorem c10_witness :
    updateLibraryItems env0 "FOO" {} none ⟨[item0], []⟩ =
      (.error "Invalid bulk action", ⟨[item0], []⟩) :=
  (c10_invalid_actions env0 "FOO" {} none ⟨[item0], []⟩).1 (by decide)

/-- C9: the search count equals the number of rows matching the predicate
regardless of pagination, the returned page has length
`min size (total - from)` with defaults `from = 0`, `size = 10`, the
default sort is save-time descending, and in particular `from = 10`,
`size = 5` over 12 matching rows yields 2 rows and count 12. -/
theorem c9_pagination :
    ∀ (env : Env) (db : List LibraryItem) (args : SearchArgs) (u : String),
      (searchLibraryItems env db args u).2 =
          (db.filter (runClauses env (searchQB env args u))).length
      ∧ (searchLibraryItems env db args u).1.length =
          min (args.size.getD 10)
            ((db.filter (runClauses env (searchQB env args u))).length - args.from_.getD 0)
      ∧ (args.sort = none → sortFieldOf args = .SAVED ∧ sortOrderOf args = .DESCENDING)
      ∧ (args.from_ = some 10 → args.size = some 5 →
          (db.filter (runClauses env (searchQB env args u))).length = 12 →
          (searchLibraryItems env db args u).1.length = 2 ∧
            (searchLibraryItems env db args u).2 = 12) := by
  intro env db args u
  have hlen : (searchLibraryItems env db args u).1.length =
      min (args.size.getD 10)
        ((db.filter (runClauses env (searchQB env args u))).length - args.from_.getD 0) := by
    show (((sortByLe
        (itemLe env (args.query.getD "") (searchQB env args u).rankOrder (sortFieldOf args)
          (sortOrderOf args))
        (db.filter (runClauses env (searchQB env args u)))).drop
          (args.from_.getD 0)).take (args.size.getD 10)).length =
      min (args.size.getD 10)
        ((db.filter (runClauses env (searchQB env args u))).length - args.from_.getD 0)
    rw [List.length_take, List.length_drop, length_sortByLe]
  refine ⟨rfl, hlen, ?_, ?_⟩
  · intro h
    constructor <;> simp [sortFieldOf, sortOrderOf, h]
  · intro h1 h2 h3
    refine ⟨?_, ?_⟩
    · rw [hlen, h1, h2, h3]
      decide
    · exact h3

/-- C9 witness: twelve matching rows, `from = 10`, `size = 5`: two rows come
back and the count is 12. -/
theorem c9_witness :
    (searchLibraryItems env0 db12 args95 "u").1.length = 2 ∧
      (searchLibraryItems env0 db12 args95 "u").2 = 12 :=
  (c9_pagination env0 db12 args95 "u").2.2.2 rfl rfl (by decide)

/-- C2 counterexample: with the notification collaborator throwing, the
update does not return the persisted entity — the rejection propagates to
the caller, so the claim that the failure is never escalated is false. -/
theorem c2_counterexample :
    (updateLibraryItem env0 "i1" patchArchive "u" true [item0]).result =
        .error "pubsub failed" ∧
      (updateLibraryItem env0 "i1" patchArchive "u" true [item0]).db =
        [{ item0 with state := .Archived, archivedAt := some env0.now }] := by
  decide

/-- C2 amended: a post-commit notification failure never rolls the
committed mutation back — the table still holds the update (resp. the
insert) — but the failure is escalated: the operation surfaces the error
instead of returning the persisted entity.  This holds for
`updateLibraryItem`, `createLibraryItem` and `restoreLibraryItem`. -/
theorem c2_notification_failure :
    ∀ (env : Env) (id : String) (p : Patch) (u : String) (db : List LibraryItem),
      (db.any (fun it => it.id = id) = true →
        (updateLibraryItem env id p u true db).result = .error "pubsub failed" ∧
          (updateLibraryItem env id p u true db).db =
            db.map (fun it => if it.id = id then
              applyPatch (deriveTimestamps env.now p) it else it))
      ∧ (∀ item : LibraryItem,
          (createLibraryItem env item u true db).result = .error "pubsub failed" ∧
            (createLibraryItem env item u true db).db = db ++ [savedItem item])
      ∧ (db.any (fun it => it.id = id) = true →
          (restoreLibraryItem env id u true db).result = .error "pubsub failed" ∧
            (restoreLibraryItem env id u true db).db =
              db.map (fun it => if it.id = id then
                applyPatch
                  (deriveTimestamps env.now
                    { state := some .Succeeded, savedAt := some env.now,
                      archivedAt := some none, deletedAt := some none }) it
              else it)) := by
  intro env id p u db
  have key : ∀ q : Patch, db.any (fun it => it.id = id) = true →
      (updateLibraryItem env id q u true db).result = .error "pubsub failed" ∧
        (updateLibraryItem env id q u true db).db =
          db.map (fun it => if it.id = id then
            applyPatch (deriveTimestamps env.now q) it else it) := by
    intro q h
    have hs := find?_isSome_of_any db id (deriveTimestamps env.now q) h
    cases hf : (db.map fun it => if it.id = id then applyPatch (deriveTimestamps env.now q) it
        else it).find? (fun it => it.id = id) with
    | none => rw [hf] at hs; exact absurd hs (by simp)
    | some it => exact ⟨by simp only [updateLibraryItem, hf]; rfl,
        by simp only [updateLibraryItem, hf]; rfl⟩
  exact ⟨key p, fun item => ⟨rfl, rfl⟩, key _⟩

/-- C2 witness: on a one-row table the commit survives a throwing
notification while the error surfaces. -/
theorem c2_witness :
    (updateLibraryItem env0 "i1" patchArchive "u" true [item0]).result =
        .error "pubsub failed" ∧
      (updateLibraryItem env0 "i1" patchArchive "u" true [item0]).db =
        [item0].map (fun it => if it.id = "i1" then
          applyPatch (deriveTimestamps env0.now patchArchive) it else it) :=
  (c2_notification_failure env0 "i1" patchArchive "u" [item0]).1 (by decide)

/-- C8 counterexample: for a patch carrying only `state = Archived`, the
published payload includes the derived `archivedAt` stamp — a field the
caller never passed — so the payload is not exactly the caller-supplied
patch plus the id. -/
theorem c8_counterexample :
    (updateLibraryItem env0 "i1" patchArchive "u" false [item0]).published ≠
        some (patchArchive, "i1") ∧
      (updateLibraryItem env0 "i1" patchArchive "u" false [item0]).published =
        some ({ patchArchive with archivedAt := some (some env0.now) }, "i1") := by
  decide

/-- C8 amended: the update notification payload is the caller's patch after
the state-derived timestamp stamping, plus the item id; it coincides with
the caller-supplied patch plus the id exactly when the patch carries no
state field. -/
theorem c8_notification_payload :
    ∀ (env : Env) (id : String) (p : Patch) (u : String) (pf : Bool)
      (db : List LibraryItem),
      (db.any (fun it => it.id = id) = true →
        (updateLibraryItem env id p u pf db).published =
          some (deriveTimestamps env.now p, id))
      ∧ (p.state = none → deriveTimestamps env.now p = p) := by
  intro env id p u pf db
  constructor
  · intro h
    have hs := find?_isSome_of_any db id (deriveTimestamps env.now p) h
    cases hf : (db.map fun it => if it.id = id then applyPatch (deriveTimestamps env.now p) it
        else it).find? (fun it => it.id = id) with
    | none => rw [hf] at hs; exact absurd hs (by simp)
    | some it =>
      simp only [updateLibraryItem, hf]
      cases pf <;> rfl
  · intro h
    simp [deriveTimestamps, h]

/-- C8 witness: the payload published for a state-only patch is the stamped
patch with the id. -/
theorem c8_witness :
    (updateLibraryItem env0 "i1" patchArchive "u" false [item0]).published =
      some (deriveTimestamps env0.now patchArchive, "i1") :=
  (c8_notification_payload env0 "i1" patchArchive "u" false [item0]).1 (by decide)

/-- C4: for the empty filter specification `buildWhereClause` emits exactly
the two default exclusions and nothing else — but both bind the same
parameter name `state`, so in the single query-wide parameter map the later
`Deleted` binding overwrites the `Processing` one: both resolved predicates
read `state != Deleted`, and a Processing row passes the built query.  This
contradicts the claimed (and clearly intended) exclusion of Processing
rows. -/
theorem c4_default_exclusions_collide :
    (buildWhereClause env0 {} {}).clauses = [.stateNe "state", .stateNe "state"]
    ∧ (buildWhereClause env0 {} {}).params =
        [("state", .state .Processing), ("state", .state .Deleted)]
    ∧ lookupParam (buildWhereClause env0 {} {}).params "state" = some (.state .Deleted)
    ∧ procItem.state = .Processing
    ∧ runClauses env0 (buildWhereClause env0 {} {}) procItem = true
    ∧ runClauses env0 (buildWhereClause env0 {} {}) { item0 with state := .Deleted } =
        false := by
  decide

/-- C6 counterexample: the TRASH predicate has no upper bound, so a row
whose `deletedAt` lies strictly after `now` — outside the claimed inclusive
window `[now-14d, now]` — is still returned. -/
theorem c6_counterexample :
    (searchLibraryItems env0 [itemFuture] argsTrash "u").1 = [itemFuture]
    ∧ itemFuture.deletedAt = some (env0.now + 86400000)
    ∧ env0.now < env0.now + 86400000 := by
  decide

/-- C6 amended: the TRASH scope emits `deleted_at >= now - 14 days` — a
lower bound only — together with the user predicate and the Processing
exclusion; the Deleted-state exclusion is skipped (its `state` binding is
Processing, not Deleted).  A row deleted strictly more than 14 days ago is
excluded, a row with a NULL `deletedAt` is excluded, and no upper bound is
applied. -/
theorem c6_trash_window :
    ∀ (env : Env) (u : String) (item : LibraryItem),
      (searchQB env argsTrash u).clauses =
          [.userEq "userId", .deletedAtWithin14Days, .stateNe "state"]
      ∧ lookupParam (searchQB env argsTrash u).params "state" =
          some (.state .Processing)
      ∧ (∀ d : Nat, item.deletedAt = some d →
          Clause.eval env (searchQB env argsTrash u).params item .deletedAtWithin14Days =
            decide (env.now - fourteenDaysMs ≤ d))
      ∧ (∀ d : Nat, item.deletedAt = some d → d + fourteenDaysMs < env.now →
          Clause.eval env (searchQB env argsTrash u).params item .deletedAtWithin14Days =
            false)
      ∧ (item.deletedAt = none →
          Clause.eval env (searchQB env argsTrash u).params item .deletedAtWithin14Days =
            false) := by
  intro env u item
  refine ⟨rfl, rfl, ?_, ?_, ?_⟩
  · intro d hd
    simp [Clause.eval, hd]
  · intro d hd hlt
    simp only [Clause.eval, hd]
    rw [decide_eq_false]
    omega
  · intro h
    simp [Clause.eval, h]

/-- C6 witness: a row deleted fifteen days before the clock fails the TRASH
predicate. -/
theorem c6_witness :
    Clause.eval env0 (searchQB env0 argsTrash "u").params item15 .deletedAtWithin14Days =
      false :=
  (c6_trash_window env0 "u" item15).2.2.2.1 10366704000000 rfl (by decide)

/-- C3 counterexample: the bound-parameter names are not pairwise distinct.
Already the empty filter specification binds `state` twice (the two default
exclusions), and two date filters on the same field bind the same
`_start`/`_end` names — the second binding overwrites the first. -/
theorem c3_counterexample :
    paramNames (buildWhereClause env0 {} {}) = ["state", "state"]
    ∧ ¬(paramNames (buildWhereClause env0 {} {})).Nodup
    ∧ paramNames (buildWhereClause env0 argsSameFieldDates {}) =
        ["saved_at_start", "saved_at_end", "saved_at_start", "saved_at_end",
          "state", "state"]
    ∧ ¬(paramNames (buildWhereClause env0 argsSameFieldDates {})).Nodup := by
  decide

/-- C3 amended: parameter names are derived from the filter's field or
index, not globally uniquified: a date filter binds `field_start` and
`field_end`, a term filter binds `term_field`, a match filter binds
`match_field`, so two filters of the same kind bind the same names exactly
when they target the same field, while include-label entries are
index-suffixed and therefore pairwise distinct; additionally both default
state exclusions bind the single name `state`, whose resolved value is the
later Deleted binding — it overwrites the Processing one. -/
theorem c3_param_name_scheme :
    ∀ (env : Env) (dfs : List DateFilter) (tfs mfs : List FieldFilter),
      paramNames (buildWhereClause env (argsDates dfs) {}) =
          dateNames dfs ++ ["state", "state"]
      ∧ paramNames (buildWhereClause env (argsTerms tfs) {}) =
          termNames tfs ++ ["state", "state"]
      ∧ paramNames (buildWhereClause env (argsMatches mfs) {}) =
          matchNames mfs ++ ["state", "state"]
      ∧ (∀ f g : String,
          ((f ++ "_start" = g ++ "_start") ↔ f = g)
          ∧ ((f ++ "_end" = g ++ "_end") ↔ f = g)
          ∧ (("term_" ++ f = "term_" ++ g) ↔ f = g)
          ∧ (("match_" ++ f = "match_" ++ g) ↔ f = g))
      ∧ (∀ i j : Nat, (incName i = incName j) ↔ i = j)
      ∧ lookupParam (buildWhereClause env (argsDates dfs) {}).params "state" =
          some (.state .Deleted)
      ∧ lookupParam (buildWhereClause env (argsTerms tfs) {}).params "state" =
          some (.state .Deleted)
      ∧ lookupParam (buildWhereClause env (argsMatches mfs) {}).params "state" =
          some (.state .Deleted) := by
  intro env dfs tfs mfs
  refine ⟨?_, ?_, ?_, ?_, ?_, ?_, ?_, ?_⟩
  · rw [bwc_dates_eq, applyDates_eq, dateFold_eq]
    simp [paramNames, QB.andWhereP, dateParams_names]
  · rw [bwc_terms_eq, applyTerms_eq, termFold_eq]
    simp [paramNames, QB.andWhereP, termParams_names]
  · rw [bwc_matches_eq, applyMatches_eq, matchFold_eq]
    simp [paramNames, QB.andWhereP, matchParams_names]
  · intro f g
    refine ⟨⟨fun h => str_append_right_cancel _ h, fun h => by rw [h]⟩,
      ⟨fun h => str_append_right_cancel _ h, fun h => by rw [h]⟩,
      ⟨fun h => str_append_left_cancel _ h, fun h => by rw [h]⟩,
      ⟨fun h => str_append_left_cancel _ h, fun h => by rw [h]⟩⟩
  · intro i j
    exact ⟨incName_inj, fun h => by rw [h]⟩
  · rw [bwc_dates_eq]
    exact lookup_state_deleted _
  · rw [bwc_terms_eq]
    exact lookup_state_deleted _
  · rw [bwc_matches_eq]
    exact lookup_state_deleted _

/-- C5: `buildWhereClause` partitions the label-filter list: every INCLUDE
entry contributes its own conjunctive overlap clause (index-named, all
ANDed), requiring the item's case-folded label-name-plus-highlight-label
array to overlap that entry's label set, while all EXCLUDE entries are
first flattened into one union and forbidden by a single NOT-overlap
clause. -/
theorem c5_label_partition :
    ∀ (env : Env) (lf : List LabelFilter) (item : LibraryItem),
      (buildWhereClause env (argsLabels lf) {}).clauses =
          incClauses 0 (lf.filter (fun f => f.type = .INCLUDE)) ++
            (exClauses lf ++ [.stateNe "state", .stateNe "state"])
      ∧ (∀ i : Nat, i < (lf.filter (fun f => f.type = .INCLUDE)).length →
          Clause.eval env (buildWhereClause env (argsLabels lf) {}).params item
              (.labelsOverlap (incName i)) =
            overlapLowered item
              (((lf.filter (fun f => f.type = .INCLUDE)).getD i ⟨.INCLUDE, []⟩).labels))
      ∧ (¬(lf.filter (fun f => f.type = .EXCLUDE)).isEmpty = true →
          Clause.eval env (buildWhereClause env (argsLabels lf) {}).params item
              (.notLabelsOverlap "excludeLabels") =
            !overlapLowered item (flatLabels (lf.filter (fun f => f.type = .EXCLUDE)))) := by
  intro env lf item
  have hq : buildWhereClause env (argsLabels lf) {} =
      { clauses := incClauses 0 (lf.filter (fun f => f.type = .INCLUDE)) ++
          (exClauses lf ++ [.stateNe "state", .stateNe "state"]),
        params := incParams 0 (lf.filter (fun f => f.type = .INCLUDE)) ++
          (exParams lf ++
            [("state", .state .Processing), ("state", .state .Deleted)]),
        rankOrder := false } := by
    rw [bwc_labels_eq, applyLabels_eq]
    simp [QB.andWhereP]
  refine ⟨by rw [hq], ?_, ?_⟩
  · intro i hi
    have hlook : lookupParam
        (incParams 0 (lf.filter (fun f => f.type = .INCLUDE)) ++
          (exParams lf ++
            [("state", .state .Processing), ("state", .state .Deleted)]))
        (incName i) =
        some (.strList
          (((lf.filter (fun f => f.type = .INCLUDE)).getD i ⟨.INCLUDE, []⟩).labels)) := by
      rw [lookupParam_append_right_none]
      · have := lookup_incParams (lf.filter (fun f => f.type = .INCLUDE)) 0 i
          ⟨.INCLUDE, []⟩ (Nat.zero_le i) (by simpa using hi)
        simpa using this
      · intro p hp
        rcases List.mem_append.mp hp with h | h
        · unfold exParams at h
          split at h
          · simp at h
          · rw [List.mem_singleton] at h
            subst h
            exact Ne.symm (str_pre_ne "includeLabels_" (natToDec i) "excludeLabels" (by decide))
        · rcases List.mem_cons.mp h with h | h
          · subst h
            exact Ne.symm (str_pre_ne "includeLabels_" (natToDec i) "state" (by decide))
          · rw [List.mem_singleton] at h
            subst h
            exact Ne.symm (str_pre_ne "includeLabels_" (natToDec i) "state" (by decide))
    rw [hq]
    simp [Clause.eval, hlook]
  · intro hne
    have hex : exParams lf =
        [("excludeLabels",
          .strList (flatLabels (lf.filter (fun f => f.type = .EXCLUDE))))] := by
      unfold exParams
      rw [if_neg hne]
    have h1 : lookupParam
        (exParams lf ++ [("state", .state .Processing), ("state", .state .Deleted)])
        "excludeLabels" =
        some (.strList (flatLabels (lf.filter (fun f => f.type = .EXCLUDE)))) := by
      rw [lookupParam_append_right_none _ _ _ (by intro p hp; fin_cases hp <;> decide), hex]
      rfl
    have hlook : lookupParam
        (incParams 0 (lf.filter (fun f => f.type = .INCLUDE)) ++
          (exParams lf ++
            [("state", .state .Processing), ("state", .state .Deleted)]))
        "excludeLabels" =
        some (.strList (flatLabels (lf.filter (fun f => f.type = .EXCLUDE)))) := by
      rw [lookupParam_append, h1]
    rw [hq]
    simp [Clause.eval, hlook]

/-- C5 witness: one INCLUDE entry and one EXCLUDE entry evaluate to the
claimed overlap conditions. -/
theorem c5_witness :
    Clause.eval env0 (buildWhereClause env0 (argsLabels lfW) {}).params item0
        (.labelsOverlap (incName 0)) =
      overlapLowered item0
        (((lfW.filter (fun f => f.type = .INCLUDE)).getD 0 ⟨.INCLUDE, []⟩).labels)
    ∧ Clause.eval env0 (buildWhereClause env0 (argsLabels lfW) {}).params item0
        (.notLabelsOverlap "excludeLabels") =
      !overlapLowered item0 (flatLabels (lfW.filter (fun f => f.type = .EXCLUDE))) :=
  ⟨(c5_label_partition env0 lfW item0).2.1 0 (by decide),
    (c5_label_partition env0 lfW item0).2.2 (by decide)⟩

/-- C1 counterexample: neither `updateLibraryItems` nor
`findLibraryItemsByPrefix` is restricted to a given user's rows.  The bulk
archive — called without any user id — mutates a row owned by `other`, and
the prefix lookup returns that row, for any caller-side user such as
`u`. -/
theorem c1_counterexample :
    ((updateLibraryItems env0 "ARCHIVE" {} none ⟨[otherItem], []⟩).2.items.map
        (fun it => (it.userId, it.state))) = [("other", .Archived)]
    ∧ otherItem.userId ≠ "u"
    ∧ findLibraryItemsByPrefix [otherItem] "Wo" 5 = [otherItem] := by
  decide

/-- C1 amended: `searchLibraryItems` is user-scoped — every row it reads
carries the given user id, because the search installs an explicit
`user_id = :userId` predicate whose binding no generated parameter name can
overwrite.  `updateLibraryItems` and `findLibraryItemsByPrefix`, by
contrast, install no user predicate at all (and pass no user id to the
transaction helper), so their row sets are not restricted to a user at this
layer. -/
theorem c1_user_scoping :
    ∀ (env : Env) (db : List LibraryItem) (args : SearchArgs) (u : String)
      (item : LibraryItem),
      (item ∈ (searchLibraryItems env db args u).1 → item.userId = u)
      ∧ (item ∈ db.filter (runClauses env (searchQB env args u)) → item.userId = u)
      ∧ (∀ c ∈ (buildWhereClause env args {}).clauses, isUserClause c = false) := by
  intro env db args u item
  have key : item ∈ db.filter (runClauses env (searchQB env args u)) → item.userId = u := by
    intro h
    rw [List.mem_filter] at h
    obtain ⟨-, hrun⟩ := h
    obtain ⟨dc, dp, hc, hp, hcu, hpu⟩ := appendsAt_buildWhereClause env args
      { clauses := [.userEq "userId"], params := [("userId", .str u)], rankOrder := false }
    have hmem : Clause.userEq "userId" ∈ (searchQB env args u).clauses := by
      show Clause.userEq "userId" ∈
        (buildWhereClause env args
          { clauses := [.userEq "userId"], params := [("userId", .str u)],
            rankOrder := false }).clauses
      rw [hc]
      exact List.mem_append_left _ (by simp)
    have heval := (List.all_eq_true.mp hrun) _ hmem
    have hlook : lookupParam (searchQB env args u).params "userId" = some (.str u) := by
      show lookupParam
        (buildWhereClause env args
          { clauses := [.userEq "userId"], params := [("userId", .str u)],
            rankOrder := false }).params "userId" = some (.str u)
      rw [hp, lookupParam_append_right_none _ _ _
        (fun p hp' => genName_ne_userId (hpu p hp'))]
      rfl
    rw [show Clause.eval env (searchQB env args u).params item (.userEq "userId") =
        (match lookupParam (searchQB env args u).params "userId" with
          | some (.str v) => decide (item.userId = v)
          | _ => false) from rfl, hlook] at heval
    exact of_decide_eq_true heval
  refine ⟨?_, key, ?_⟩
  · intro h
    exact key ((mem_sortByLe _ _ _).mp
      (List.drop_subset _ _ (List.take_subset _ _ h)))
  · obtain ⟨dc, dp, hc, hp, hcu, hpu⟩ := appendsAt_buildWhereClause env args {}
    intro c hcm
    rw [hc] at hcm
    exact hcu c (by simpa using hcm)

/-- C1 witness: a row returned by the user-scoped search carries the given
user id. -/
theorem c1_witness : item0.userId = "u" :=
  (c1_user_scoping env0 [item0] {} "u" item0).1 (by decide)

end Omnivore
